import Mathlib

/-!
Shallow embedding of the membrane-agent core (libertaria-sdk) and proofs of
the spec claims about it.

Sources embedded:
* `src/membrane-agent/src/anomaly_alerts.rs` — `AlertPriority`, `Alert`,
  `Alert::from_anomaly`, `AnomalyAlertSystem::{with_capacity, emit,
  get_alerts_above}`.
* `src/membrane-agent/src/policy_enforcer.rs` — `PolicyDecision`,
  `PolicyEnforcer::{new, with_thresholds, should_accept_packet,
  check_for_betrayal}`.
* `src/membrane-agent/src/event_listener.rs` — `L0Event`, `handle_connection`
  (the frame-decoding loop).
* `src/membrane-agent/src/qvl_ffi.rs` — `AnomalyReason`, `AnomalyScore`,
  `QvlError`.

Modelling conventions: Rust `f64` scores are embedded as `ℚ` (the code only
compares scores against literal constants, never does float arithmetic, and
every float literal involved is an exact rational); bytes are `Nat`s below
256 inside a `List Nat`; the external QVL oracle calls are replaced by their
`Result` values at the FFI boundary; `Vec::remove(0)` on an empty vector is a
panic, modelled by `Option` (`none` = panic).
-/

set_option linter.unnecessarySeqFocus false

namespace MembraneAgent

/-- `AnomalyReason` from `qvl_ffi.rs` (safe Rust version). -/
inductive AnomalyReason
  | none
  | negativeCycle
  | lowCoverage
  | bpDivergence
  | unknown
deriving DecidableEq, Repr

/-- `AnomalyScore` from `qvl_ffi.rs`: `{ node: u32, score: f64, reason }`.
`score` embedded as `ℚ`, `node` as `Nat` (its value is never computed with). -/
structure AnomalyScore where
  node : Nat
  score : ℚ
  reason : AnomalyReason
deriving DecidableEq, Repr

/-- `AlertPriority` from `anomaly_alerts.rs`: `Critical = 0, Warning = 1,
Info = 2` with derived `Ord` (discriminant order). -/
inductive AlertPriority
  | critical
  | warning
  | info
deriving DecidableEq, Repr

/-- The Rust enum discriminant; the derived `Ord` on `AlertPriority` compares
these values. -/
def AlertPriority.rank : AlertPriority → Nat
  | .critical => 0
  | .warning => 1
  | .info => 2

/-- `Alert` from `anomaly_alerts.rs`. The `timestamp: DateTime<Utc>` field
(wall clock captured at ingestion via `Utc::now()`) is omitted: it is an
ambient-time effect that none of the claims mention. -/
structure Alert where
  priority : AlertPriority
  node : Nat
  score : ℚ
  reason : AnomalyReason
deriving DecidableEq, Repr

/-- `Alert::from_anomaly`: classify the score (`>= 0.9` Critical,
`>= 0.7` Warning, otherwise Info) and freeze it into the alert. -/
def Alert.fromAnomaly (anomaly : AnomalyScore) : Alert :=
  let priority :=
    if (0.9 : ℚ) ≤ anomaly.score then AlertPriority.critical
    else if (0.7 : ℚ) ≤ anomaly.score then AlertPriority.warning
    else AlertPriority.info
  { priority := priority
    node := anomaly.node
    score := anomaly.score
    reason := anomaly.reason }

/-- One `AnomalyAlertSystem::emit` call on a store holding `alerts` (oldest
first) with configured capacity `maxAlerts`:
`if alerts.len() >= self.max_alerts { alerts.remove(0); } alerts.push(alert)`.
`Vec::remove(0)` on an empty vector panics, modelled as `none`. -/
def emitStep (maxAlerts : Nat) (alerts : List Alert) (anomaly : AnomalyScore) :
    Option (List Alert) :=
  let alert := Alert.fromAnomaly anomaly
  if maxAlerts ≤ alerts.length then
    match alerts with
    | [] => Option.none
    | _ :: tl => Option.some (tl ++ [alert])
  else Option.some (alerts ++ [alert])

/-- A sequence of `emit` calls, applied in store order. -/
def emitSeq (maxAlerts : Nat) (alerts : List Alert) :
    List AnomalyScore → Option (List Alert)
  | [] => Option.some alerts
  | a :: rest =>
    match emitStep maxAlerts alerts a with
    | Option.none => Option.none
    | Option.some alerts' => emitSeq maxAlerts alerts' rest

/-- `AnomalyAlertSystem::get_alerts_above`: filter on the derived
`a.priority <= min_priority` (discriminant order), preserving store order. -/
def getAlertsAbove (alerts : List Alert) (minPriority : AlertPriority) :
    List Alert :=
  alerts.filter (fun a => decide (a.priority.rank ≤ minPriority.rank))

/-- Modelled from the spec (§3): severity ordering `Critical` most severe,
then `Warning`, then `Info`; higher rank = more severe. -/
def severityRank : AlertPriority → Nat
  | .critical => 2
  | .warning => 1
  | .info => 0

/-- Modelled from the spec (§4.5): `p` is at least as severe as `minP`. -/
def atLeastAsSevere (p minP : AlertPriority) : Prop :=
  severityRank minP ≤ severityRank p

instance instDecidableAtLeastAsSevere (p minP : AlertPriority) :
    Decidable (atLeastAsSevere p minP) :=
  inferInstanceAs (Decidable (severityRank minP ≤ severityRank p))

/-- C2: For every anomaly score s, the priority computed at ingestion is
Critical iff s ≥ 0.9, Warning iff 0.7 ≤ s < 0.9, and Info iff s < 0.7. -/
theorem alert_priority_thresholds (n : Nat) (s : ℚ) (r : AnomalyReason) :
    ((Alert.fromAnomaly ⟨n, s, r⟩).priority = AlertPriority.critical ↔
      (0.9 : ℚ) ≤ s) ∧
    ((Alert.fromAnomaly ⟨n, s, r⟩).priority = AlertPriority.warning ↔
      (0.7 : ℚ) ≤ s ∧ s < (0.9 : ℚ)) ∧
    ((Alert.fromAnomaly ⟨n, s, r⟩).priority = AlertPriority.info ↔
      s < (0.7 : ℚ)) := by
  simp only [Alert.fromAnomaly]
  split_ifs with h1 h2 <;>
    refine ⟨?_, ?_, ?_⟩ <;> simp_all <;> linarith

/-- On a store within capacity, one emit succeeds, appends the new alert,
evicts the head exactly when the store is full, and stays within capacity. -/
theorem emitSeq_closed_form (cap : Nat) (hcap : 1 ≤ cap) :
    ∀ (xs : List AnomalyScore) (st : List Alert), st.length ≤ cap →
      emitSeq cap st xs =
        Option.some ((st ++ xs.map Alert.fromAnomaly).drop
          (st.length + xs.length - cap)) := by
  intro xs
  induction xs with
  | nil =>
    intro st hst
    simp only [emitSeq, List.map_nil, List.append_nil, List.length_nil]
    have : st.length + 0 - cap = 0 := by omega
    rw [this, List.drop_zero]
  | cons a rest ih =>
    intro st hst
    simp only [emitSeq, emitStep]
    by_cases hfull : cap ≤ st.length
    · have hlen : st.length = cap := le_antisymm hst hfull
      cases st with
      | nil => simp at hlen; omega
      | cons h t =>
        rw [if_pos hfull]
        dsimp only
        have ht : t.length + 1 = cap := by
          simpa [List.length_cons] using hlen
        have ht' : (t ++ [Alert.fromAnomaly a]).length ≤ cap := by
          simp [List.length_append]; omega
        rw [ih (t ++ [Alert.fromAnomaly a]) ht']
        have e1 : (t ++ [Alert.fromAnomaly a]).length + rest.length - cap =
            rest.length := by
          simp [List.length_append]; omega
        have e2 : (h :: t).length + (a :: rest).length - cap =
            rest.length + 1 := by
          simp [List.length_cons]; omega
        rw [e1, e2]
        have e3 : (h :: t) ++ (a :: rest).map Alert.fromAnomaly =
            h :: (t ++ [Alert.fromAnomaly a] ++ rest.map Alert.fromAnomaly) := by
          simp
        rw [e3, List.drop_succ_cons]
    · rw [if_neg hfull]
      dsimp only
      have hst' : (st ++ [Alert.fromAnomaly a]).length ≤ cap := by
        simp [List.length_append]; omega
      rw [ih (st ++ [Alert.fromAnomaly a]) hst']
      have e4 : (st ++ [Alert.fromAnomaly a]).length + rest.length - cap =
          st.length + (a :: rest).length - cap := by
        simp [List.length_append, List.length_cons]; omega
      have e5 : st ++ [Alert.fromAnomaly a] ++ rest.map Alert.fromAnomaly =
          st ++ (a :: rest).map Alert.fromAnomaly := by
        simp
      rw [e4, e5]

/-- C1: with capacity `cap ≥ 1`, after any prefix of the emitted sequence the
store holds at most `cap` alerts, and after emitting `cap + k` anomalies the
store holds exactly the alerts of the most recent `cap` anomalies, in their
original relative insertion order (the `k` oldest are gone). -/
theorem alert_store_fifo_eviction (cap k n : Nat) (xs : List AnomalyScore)
    (hcap : 1 ≤ cap) (hlen : xs.length = cap + k) :
    (∃ st, emitSeq cap [] (xs.take n) = Option.some st ∧ st.length ≤ cap) ∧
    emitSeq cap [] xs =
      Option.some ((xs.map Alert.fromAnomaly).drop k) := by
  constructor
  · refine ⟨((xs.take n).map Alert.fromAnomaly).drop
      ((xs.take n).length - cap), ?_, ?_⟩
    · have := emitSeq_closed_form cap hcap (xs.take n) [] (by simp)
      simpa using this
    · simp only [List.length_drop, List.length_map, List.length_take]
      omega
  · have := emitSeq_closed_form cap hcap xs [] (by simp)
    simpa [hlen] using this

/-- C1 witness: capacity 2, three anomalies emitted; every prefix stays within
capacity and the final store is the last two alerts in order. -/
theorem alert_store_fifo_eviction_witness :
    (∃ st,
      emitSeq 2 []
        (([⟨1, 0.95, AnomalyReason.negativeCycle⟩,
           ⟨2, 0.75, AnomalyReason.lowCoverage⟩,
           ⟨3, 0.55, AnomalyReason.bpDivergence⟩] :
          List AnomalyScore).take 2) = Option.some st ∧ st.length ≤ 2) ∧
    emitSeq 2 []
        ([⟨1, 0.95, AnomalyReason.negativeCycle⟩,
          ⟨2, 0.75, AnomalyReason.lowCoverage⟩,
          ⟨3, 0.55, AnomalyReason.bpDivergence⟩] : List AnomalyScore) =
      Option.some
        ((([⟨1, 0.95, AnomalyReason.negativeCycle⟩,
            ⟨2, 0.75, AnomalyReason.lowCoverage⟩,
            ⟨3, 0.55, AnomalyReason.bpDivergence⟩] :
           List AnomalyScore).map Alert.fromAnomaly).drop 1) :=
  alert_store_fifo_eviction 2 1 2 _ (by decide) (by decide)

/-- C10: emit on a store created with capacity 0 panics on the very first
call (`Vec::remove(0)` on an empty vector), while with any capacity ≥ 1 emit
never panics, whatever the current store contents. -/
theorem emit_total_iff_capacity_positive :
    (∀ a, emitStep 0 [] a = Option.none) ∧
    (∀ (cap : Nat) (st : List Alert) (a : AnomalyScore),
      1 ≤ cap → (emitStep cap st a).isSome = true) := by
  constructor
  · intro a; rfl
  · intro cap st a hcap
    simp only [emitStep]
    by_cases hfull : cap ≤ st.length
    · rw [if_pos hfull]
      cases st with
      | nil => simp at hfull; omega
      | cons h t => simp
    · rw [if_neg hfull]; simp

/-- C10 witness: with capacity 1 the first emit on the empty store succeeds. -/
theorem emit_total_iff_capacity_positive_witness :
    (emitStep 0 [] ⟨7, 0.95, AnomalyReason.negativeCycle⟩ = Option.none) ∧
    (1 ≤ 1 ∧
      (emitStep 1 [] ⟨7, 0.95, AnomalyReason.negativeCycle⟩).isSome = true) :=
  ⟨emit_total_iff_capacity_positive.1 _,
   by decide,
   emit_total_iff_capacity_positive.2 1 [] _ (by decide)⟩

/-- C8: `get_alerts_above` returns exactly the stored alerts at least as
severe as `minPriority` (under the spec severity ordering Critical > Warning
> Info), as an order-preserving sublist of the store; for `Warning` it is
exactly the Critical-or-Warning filter of the store, in store order. -/
theorem get_alerts_above_severity (alerts : List Alert)
    (minPriority : AlertPriority) :
    getAlertsAbove alerts minPriority =
      alerts.filter (fun a => decide (atLeastAsSevere a.priority minPriority)) ∧
    List.Sublist (getAlertsAbove alerts minPriority) alerts ∧
    getAlertsAbove alerts AlertPriority.warning =
      alerts.filter (fun a =>
        decide (a.priority = AlertPriority.critical ∨
          a.priority = AlertPriority.warning)) := by
  refine ⟨?_, ?_, ?_⟩
  · unfold getAlertsAbove
    apply List.filter_congr
    intro a _
    cases ha : a.priority <;> cases minPriority <;> decide
  · exact List.filter_sublist _
  · unfold getAlertsAbove
    apply List.filter_congr
    intro a _
    cases ha : a.priority <;> decide

/-- C2 witness: the thresholds evaluated at score 0.95. -/
theorem alert_priority_thresholds_witness :
    ((Alert.fromAnomaly ⟨1, 0.95, AnomalyReason.negativeCycle⟩).priority =
        AlertPriority.critical ↔ (0.9 : ℚ) ≤ 0.95) ∧
    ((Alert.fromAnomaly ⟨1, 0.95, AnomalyReason.negativeCycle⟩).priority =
        AlertPriority.warning ↔ (0.7 : ℚ) ≤ 0.95 ∧ (0.95 : ℚ) < 0.9) ∧
    ((Alert.fromAnomaly ⟨1, 0.95, AnomalyReason.negativeCycle⟩).priority =
        AlertPriority.info ↔ (0.95 : ℚ) < 0.7) :=
  alert_priority_thresholds 1 0.95 AnomalyReason.negativeCycle

/-- C8 witness: a three-alert store, queried at Warning. -/
theorem get_alerts_above_severity_witness :
    (getAlertsAbove
        [⟨AlertPriority.critical, 1, 0.95, AnomalyReason.negativeCycle⟩,
         ⟨AlertPriority.warning, 2, 0.75, AnomalyReason.lowCoverage⟩,
         ⟨AlertPriority.info, 3, 0.55, AnomalyReason.bpDivergence⟩]
        AlertPriority.warning =
      ([⟨AlertPriority.critical, 1, 0.95, AnomalyReason.negativeCycle⟩,
        ⟨AlertPriority.warning, 2, 0.75, AnomalyReason.lowCoverage⟩,
        ⟨AlertPriority.info, 3, 0.55, AnomalyReason.bpDivergence⟩] :
       List Alert).filter (fun a =>
        decide (atLeastAsSevere a.priority AlertPriority.warning)) ∧
      List.Sublist
        (getAlertsAbove
          [⟨AlertPriority.critical, 1, 0.95, AnomalyReason.negativeCycle⟩,
           ⟨AlertPriority.warning, 2, 0.75, AnomalyReason.lowCoverage⟩,
           ⟨AlertPriority.info, 3, 0.55, AnomalyReason.bpDivergence⟩]
          AlertPriority.warning)
        [⟨AlertPriority.critical, 1, 0.95, AnomalyReason.negativeCycle⟩,
         ⟨AlertPriority.warning, 2, 0.75, AnomalyReason.lowCoverage⟩,
         ⟨AlertPriority.info, 3, 0.55, AnomalyReason.bpDivergence⟩] ∧
      getAlertsAbove
          [⟨AlertPriority.critical, 1, 0.95, AnomalyReason.negativeCycle⟩,
           ⟨AlertPriority.warning, 2, 0.75, AnomalyReason.lowCoverage⟩,
           ⟨AlertPriority.info, 3, 0.55, AnomalyReason.bpDivergence⟩]
          AlertPriority.warning =
        ([⟨AlertPriority.critical, 1, 0.95, AnomalyReason.negativeCycle⟩,
          ⟨AlertPriority.warning, 2, 0.75, AnomalyReason.lowCoverage⟩,
          ⟨AlertPriority.info, 3, 0.55, AnomalyReason.bpDivergence⟩] :
         List Alert).filter (fun a =>
          decide (a.priority = AlertPriority.critical ∨
            a.priority = AlertPriority.warning))) :=
  get_alerts_above_severity _ AlertPriority.warning

/-- `PolicyDecision` from `policy_enforcer.rs`. -/
inductive PolicyDecision
  | accept
  | deprioritize
  | drop
  | neutral
deriving DecidableEq, Repr

/-- `QvlError` from `qvl_ffi.rs`. -/
inductive QvlError
  | initFailed
  | invalidDid
  | trustScoreFailed
  | mutationFailed
  | nullContext
deriving DecidableEq, Repr

/-- `PolicyEnforcer` from `policy_enforcer.rs`: the two policy thresholds.
The `qvl: Arc<QvlClient>` handle is the external-oracle capability; its calls
are embedded as their `Result` values at the FFI boundary. -/
structure PolicyEnforcer where
  dropThreshold : ℚ
  untrustedThreshold : ℚ
deriving DecidableEq, Repr

/-- `PolicyEnforcer::new`: default thresholds 0.1 (drop) and 0.5
(deprioritize). -/
def PolicyEnforcer.new : PolicyEnforcer :=
  { dropThreshold := 0.1, untrustedThreshold := 0.5 }

/-- `PolicyEnforcer::with_thresholds`. -/
def PolicyEnforcer.withThresholds (dropThreshold untrustedThreshold : ℚ) :
    PolicyEnforcer :=
  { dropThreshold := dropThreshold, untrustedThreshold := untrustedThreshold }

/-- `PolicyEnforcer::should_accept_packet`, with the oracle call
`self.qvl.get_trust_score(sender_did)` replaced by its result. The Rust
match arms, in order: `Ok(score) if score < drop_threshold => Drop`,
`Ok(score) if score < untrusted_threshold => Deprioritize`, `Ok(_) =>
Accept`, `Err(TrustScoreFailed) | Err(InvalidDid) => Neutral`,
`Err(_) => Neutral`. -/
def PolicyEnforcer.shouldAcceptPacket (pe : PolicyEnforcer)
    (trustScore : Except QvlError ℚ) : PolicyDecision :=
  match trustScore with
  | .ok score =>
    if score < pe.dropThreshold then PolicyDecision.drop
    else if score < pe.untrustedThreshold then PolicyDecision.deprioritize
    else PolicyDecision.accept
  | .error QvlError.trustScoreFailed => PolicyDecision.neutral
  | .error QvlError.invalidDid => PolicyDecision.neutral
  | .error _ => PolicyDecision.neutral

/-- `PolicyEnforcer::check_for_betrayal`, with the oracle call
`self.qvl.detect_betrayal(node_id)` replaced by its result:
`Ok(anomaly) if anomaly.score > 0.7 => Some(anomaly.score)`, `_ => None`. -/
def checkForBetrayal (betrayal : Except QvlError AnomalyScore) : Option ℚ :=
  match betrayal with
  | .ok anomaly =>
    if (0.7 : ℚ) < anomaly.score then Option.some anomaly.score
    else Option.none
  | .error _ => Option.none

/-- C3: for a successfully returned trust score `s` and thresholds
`dt ≤ ut`, `should_accept_packet` returns Drop when `s < dt`, Deprioritize
when `dt ≤ s < ut`, Accept when `s ≥ ut`; and under the default thresholds
(0.1, 0.5) it returns Drop at 0.05, Deprioritize at 0.3, Accept at 0.6. -/
theorem should_accept_packet_thresholds (dt ut s : ℚ) (h : dt ≤ ut) :
    (s < dt →
      (PolicyEnforcer.withThresholds dt ut).shouldAcceptPacket (.ok s) =
        PolicyDecision.drop) ∧
    (dt ≤ s ∧ s < ut →
      (PolicyEnforcer.withThresholds dt ut).shouldAcceptPacket (.ok s) =
        PolicyDecision.deprioritize) ∧
    (ut ≤ s →
      (PolicyEnforcer.withThresholds dt ut).shouldAcceptPacket (.ok s) =
        PolicyDecision.accept) ∧
    PolicyEnforcer.new.shouldAcceptPacket (.ok 0.05) = PolicyDecision.drop ∧
    PolicyEnforcer.new.shouldAcceptPacket (.ok 0.3) =
      PolicyDecision.deprioritize ∧
    PolicyEnforcer.new.shouldAcceptPacket (.ok 0.6) = PolicyDecision.accept := by
  refine ⟨?_, ?_, ?_, ?_, ?_, ?_⟩
  · intro hs
    simp [PolicyEnforcer.shouldAcceptPacket, PolicyEnforcer.withThresholds, hs]
  · rintro ⟨hs1, hs2⟩
    simp [PolicyEnforcer.shouldAcceptPacket, PolicyEnforcer.withThresholds,
      not_lt.mpr hs1, hs2]
  · intro hs
    have h1 : ¬ s < dt := not_lt.mpr (le_trans h hs)
    have h2 : ¬ s < ut := not_lt.mpr hs
    simp [PolicyEnforcer.shouldAcceptPacket, PolicyEnforcer.withThresholds,
      h1, h2]
  · simp only [PolicyEnforcer.shouldAcceptPacket, PolicyEnforcer.new]
    norm_num
  · simp only [PolicyEnforcer.shouldAcceptPacket, PolicyEnforcer.new]
    norm_num
  · simp only [PolicyEnforcer.shouldAcceptPacket, PolicyEnforcer.new]
    norm_num

/-- C3 witness: at default thresholds (0.1 ≤ 0.5) and score 0.05, all three
clauses are instantiated; the score falls in the Drop band. -/
theorem should_accept_packet_thresholds_witness :
    ((0.1 : ℚ) ≤ 0.5 ∧ (0.05 : ℚ) < 0.1) ∧
    ((PolicyEnforcer.withThresholds 0.1 0.5).shouldAcceptPacket (.ok 0.05) =
      PolicyDecision.drop) :=
  ⟨⟨by norm_num, by norm_num⟩,
   (should_accept_packet_thresholds 0.1 0.5 0.05 (by norm_num)).1
     (by norm_num)⟩

/-- C4: whenever the oracle trust-score query fails (any error value, any
thresholds), `should_accept_packet` returns Neutral, and in particular never
Drop and never Accept. -/
theorem should_accept_packet_failure_neutral (pe : PolicyEnforcer)
    (e : QvlError) :
    pe.shouldAcceptPacket (.error e) = PolicyDecision.neutral ∧
    pe.shouldAcceptPacket (.error e) ≠ PolicyDecision.drop ∧
    pe.shouldAcceptPacket (.error e) ≠ PolicyDecision.accept := by
  cases e <;> refine ⟨rfl, ?_, ?_⟩ <;>
    simp [PolicyEnforcer.shouldAcceptPacket]

/-- C4 witness: a failed trust-score query under default thresholds. -/
theorem should_accept_packet_failure_neutral_witness :
    PolicyEnforcer.new.shouldAcceptPacket
        (.error QvlError.trustScoreFailed) = PolicyDecision.neutral ∧
    PolicyEnforcer.new.shouldAcceptPacket
        (.error QvlError.trustScoreFailed) ≠ PolicyDecision.drop ∧
    PolicyEnforcer.new.shouldAcceptPacket
        (.error QvlError.trustScoreFailed) ≠ PolicyDecision.accept :=
  should_accept_packet_failure_neutral PolicyEnforcer.new
    QvlError.trustScoreFailed

/-- C9: the betrayal scan returns a score iff the oracle succeeded with that
score and it strictly exceeds the 0.7 severity floor; it returns no finding
iff the oracle failed or the returned score is at most 0.7. -/
theorem check_for_betrayal_floor (betrayal : Except QvlError AnomalyScore)
    (s : ℚ) :
    (checkForBetrayal betrayal = Option.some s ↔
      ∃ a, betrayal = .ok a ∧ a.score = s ∧ (0.7 : ℚ) < s) ∧
    (checkForBetrayal betrayal = Option.none ↔
      (∃ e, betrayal = .error e) ∨
      (∃ a, betrayal = .ok a ∧ a.score ≤ (0.7 : ℚ))) := by
  cases betrayal with
  | error e =>
    refine ⟨?_, ?_⟩ <;> simp [checkForBetrayal]
  | ok a =>
    by_cases hs : (0.7 : ℚ) < a.score
    · have hv : checkForBetrayal (Except.ok a) = Option.some a.score := by
        simp [checkForBetrayal, hs]
      refine ⟨⟨?_, ?_⟩, ⟨?_, ?_⟩⟩
      · intro h
        rw [hv] at h
        injection h with h'
        exact ⟨a, rfl, h', h' ▸ hs⟩
      · rintro ⟨b, hb, hbs, hgt⟩
        injection hb with hb'
        subst hb'
        subst hbs
        exact hv
      · intro h
        rw [hv] at h
        cases h
      · rintro (⟨e, he⟩ | ⟨b, hb, hbs⟩)
        · cases he
        · injection hb with hb'
          subst hb'
          exact absurd hs (not_lt.mpr hbs)
    · have hv : checkForBetrayal (Except.ok a) = Option.none := by
        simp [checkForBetrayal, hs]
      refine ⟨⟨?_, ?_⟩, ⟨?_, ?_⟩⟩
      · intro h
        rw [hv] at h
        cases h
      · rintro ⟨b, hb, hbs, hgt⟩
        injection hb with hb'
        subst hb'
        subst hbs
        exact absurd hgt hs
      · intro _
        exact Or.inr ⟨a, rfl, not_lt.mp hs⟩
      · intro _
        exact hv

/-- C9 witness: an oracle success at score 0.9 (above the floor). -/
theorem check_for_betrayal_floor_witness :
    (checkForBetrayal (.ok ⟨5, 0.9, AnomalyReason.negativeCycle⟩) =
        Option.some 0.9 ↔
      ∃ a, (Except.ok ⟨5, 0.9, AnomalyReason.negativeCycle⟩ :
          Except QvlError AnomalyScore) = .ok a ∧
        a.score = 0.9 ∧ (0.7 : ℚ) < 0.9) ∧
    (checkForBetrayal (.ok ⟨5, 0.9, AnomalyReason.negativeCycle⟩) =
        Option.none ↔
      (∃ e, (Except.ok ⟨5, 0.9, AnomalyReason.negativeCycle⟩ :
          Except QvlError AnomalyScore) = .error e) ∨
      (∃ a, (Except.ok ⟨5, 0.9, AnomalyReason.negativeCycle⟩ :
          Except QvlError AnomalyScore) = .ok a ∧ a.score ≤ (0.7 : ℚ))) :=
  check_for_betrayal_floor (.ok ⟨5, 0.9, AnomalyReason.negativeCycle⟩) 0.9

/-- `L0Event` from `event_listener.rs`. DIDs (`[u8; 32]`) are byte lists;
`payload_size: usize` is a `Nat`. -/
inductive L0Event
  | packetReceived (senderDid : List Nat) (packetType : Nat)
      (payloadSize : Nat)
  | connectionEstablished (peerDid : List Nat)
  | connectionDropped (peerDid : List Nat) (reason : String)
deriving DecidableEq, Repr

/-- How `handle_connection` terminates. The `String` payloads of the Rust
`EventListenerError` variants are log text and are omitted. `ok` covers both
the clean header-boundary EOF and a closed event channel (`break`). -/
inductive ConnResult
  | ok
  | protocolError
  | ioError
deriving DecidableEq, Repr

/-- `u16::from_le_bytes`. -/
def u16le (b0 b1 : Nat) : Nat := b0 + 256 * b1

/-- `u32::from_le_bytes`. -/
def u32le (b0 b1 b2 b3 : Nat) : Nat :=
  b0 + 256 * b1 + 65536 * b2 + 16777216 * b3

/-- `IPC_MAGIC` from `event_listener.rs`. -/
def ipcMagic : Nat := 0x55AA

/-- The payload-interpretation step of `handle_connection` (step 3, keyed by
the header `type` byte): `0x01` needs ≥ 37 payload bytes (32 DID, 1 type,
4 size LE), `0x02` needs ≥ 32 (DID), anything else produces no event; a
too-short payload of a recognized type also produces no event. -/
def parseFrame (eventType : Nat) (payload : List Nat) : Option L0Event :=
  if eventType = 0x01 then
    if payload.length < 37 then Option.none
    else
      Option.some (L0Event.packetReceived (payload.take 32) (payload.getD 32 0)
        (u32le (payload.getD 33 0) (payload.getD 34 0) (payload.getD 35 0)
          (payload.getD 36 0)))
  else if eventType = 0x02 then
    if payload.length < 32 then Option.none
    else Option.some (L0Event.connectionEstablished (payload.take 32))
  else Option.none

/-- The `handle_connection` loop over a finite byte stream, with explicit
fuel (each loop iteration consumes the 8-byte header plus the payload, so
`bytes.length` fuel is always enough). Per iteration: `read_exact` of the
8-byte header (`UnexpectedEof` — fewer than 8 bytes left — breaks cleanly),
magic check (mismatch is a fatal protocol error), `read_exact` of `length`
payload bytes (EOF there is an I/O error), then `parseFrame`; produced
events are collected in wire order. -/
def handleConnectionAux (fuel : Nat) (bytes : List Nat) :
    List L0Event × ConnResult :=
  match bytes with
  | b0 :: b1 :: b2 :: _b3 :: b4 :: b5 :: b6 :: b7 :: rest =>
    match fuel with
    | 0 => ([], ConnResult.ioError)
    | fuel + 1 =>
      if u16le b0 b1 ≠ ipcMagic then ([], ConnResult.protocolError)
      else
        let len := u32le b4 b5 b6 b7
        if rest.length < len then ([], ConnResult.ioError)
        else
          match parseFrame b2 (rest.take len) with
          | Option.some e =>
            let r := handleConnectionAux fuel (rest.drop len)
            (e :: r.1, r.2)
          | Option.none => handleConnectionAux fuel (rest.drop len)
  | _ => ([], ConnResult.ok)

/-- `handle_connection` on a complete inbound byte stream. -/
def handleConnection (bytes : List Nat) : List L0Event × ConnResult :=
  handleConnectionAux bytes.length bytes

/-- The fuel argument is irrelevant once it covers the stream length. -/
theorem handleConnectionAux_fuel (fuel1 : Nat) :
    ∀ (bytes : List Nat) (fuel2 : Nat), bytes.length ≤ fuel1 →
      bytes.length ≤ fuel2 →
      handleConnectionAux fuel1 bytes = handleConnectionAux fuel2 bytes := by
  induction fuel1 with
  | zero =>
    intro bytes fuel2 h1 _
    match bytes with
    | [] => cases fuel2 <;> rfl
    | b0 :: rest => simp at h1
  | succ g1 ih =>
    intro bytes fuel2 h1 h2
    match bytes, fuel2 with
    | [], f2 => cases f2 <;> rfl
    | [b0], f2 => cases f2 <;> rfl
    | [b0, b1], f2 => cases f2 <;> rfl
    | [b0, b1, b2], f2 => cases f2 <;> rfl
    | [b0, b1, b2, b3], f2 => cases f2 <;> rfl
    | [b0, b1, b2, b3, b4], f2 => cases f2 <;> rfl
    | [b0, b1, b2, b3, b4, b5], f2 => cases f2 <;> rfl
    | [b0, b1, b2, b3, b4, b5, b6], f2 => cases f2 <;> rfl
    | b0 :: b1 :: b2 :: b3 :: b4 :: b5 :: b6 :: b7 :: rest, 0 =>
      simp [List.length_cons] at h2
    | b0 :: b1 :: b2 :: b3 :: b4 :: b5 :: b6 :: b7 :: rest, g2 + 1 =>
      simp only [handleConnectionAux]
      by_cases hm : u16le b0 b1 ≠ ipcMagic
      · rw [if_pos hm, if_pos hm]
      · rw [if_neg hm, if_neg hm]
        have hrest : rest.length + 8 ≤ g1 + 1 := by
          simpa [List.length_cons] using h1
        have hrest2 : rest.length + 8 ≤ g2 + 1 := by
          simpa [List.length_cons] using h2
        by_cases hlen : rest.length < u32le b4 b5 b6 b7
        · rw [if_pos hlen, if_pos hlen]
        · rw [if_neg hlen, if_neg hlen]
          have hdrop : (rest.drop (u32le b4 b5 b6 b7)).length ≤ g1 := by
            simp only [List.length_drop]
            omega
          have hdrop2 : (rest.drop (u32le b4 b5 b6 b7)).length ≤ g2 := by
            simp only [List.length_drop]
            omega
          cases parseFrame b2 (rest.take (u32le b4 b5 b6 b7)) with
          | none => exact ih _ g2 hdrop hdrop2
          | some e =>
            dsimp only
            rw [ih _ g2 hdrop hdrop2]

/-- Unfolding `handleConnection` across one complete frame-decoding step. -/
theorem handleConnection_cons (b0 b1 b2 b3 b4 b5 b6 b7 : Nat)
    (rest : List Nat) :
    handleConnection (b0 :: b1 :: b2 :: b3 :: b4 :: b5 :: b6 :: b7 :: rest) =
      if u16le b0 b1 ≠ ipcMagic then ([], ConnResult.protocolError)
      else if rest.length < u32le b4 b5 b6 b7 then ([], ConnResult.ioError)
      else
        match parseFrame b2 (rest.take (u32le b4 b5 b6 b7)) with
        | Option.some e =>
          let r := handleConnection (rest.drop (u32le b4 b5 b6 b7))
          (e :: r.1, r.2)
        | Option.none => handleConnection (rest.drop (u32le b4 b5 b6 b7)) := by
  show handleConnectionAux
      (b0 :: b1 :: b2 :: b3 :: b4 :: b5 :: b6 :: b7 :: rest).length
      (b0 :: b1 :: b2 :: b3 :: b4 :: b5 :: b6 :: b7 :: rest) = _
  have hlen :
      (b0 :: b1 :: b2 :: b3 :: b4 :: b5 :: b6 :: b7 :: rest).length =
        rest.length + 8 := by
    simp [List.length_cons]
  rw [hlen]
  show (match rest.length + 8 with
    | 0 => ([], ConnResult.ioError)
    | fuel + 1 =>
      if u16le b0 b1 ≠ ipcMagic then ([], ConnResult.protocolError)
      else
        let len := u32le b4 b5 b6 b7
        if rest.length < len then ([], ConnResult.ioError)
        else
          match parseFrame b2 (rest.take len) with
          | Option.some e =>
            let r := handleConnectionAux fuel (rest.drop len)
            (e :: r.1, r.2)
          | Option.none => handleConnectionAux fuel (rest.drop len)) = _
  have h8 : rest.length + 8 = (rest.length + 7) + 1 := by omega
  rw [h8]
  dsimp only
  by_cases hm : u16le b0 b1 ≠ ipcMagic
  · rw [if_pos hm, if_pos hm]
  · rw [if_neg hm, if_neg hm]
    by_cases hlt : rest.length < u32le b4 b5 b6 b7
    · rw [if_pos hlt, if_pos hlt]
    · rw [if_neg hlt, if_neg hlt]
      have hfuel : (rest.drop (u32le b4 b5 b6 b7)).length ≤ rest.length + 7 := by
        simp only [List.length_drop]
        omega
      have heq := handleConnectionAux_fuel (rest.length + 7)
        (rest.drop (u32le b4 b5 b6 b7)) (rest.drop (u32le b4 b5 b6 b7)).length
        hfuel le_rfl
      cases parseFrame b2 (rest.take (u32le b4 b5 b6 b7)) with
      | none => exact heq
      | some e =>
        dsimp only
        rw [heq]
        rfl

/-- C5: decoding the byte stream `AA 55 01 00 25 00 00 00` + 32×`FF` + `2A`
+ `00 04 00 00` yields exactly one event, `PacketReceived` with sender id
32×`0xFF`, packet type 42, payload size 1024, and the connection ends
cleanly. -/
theorem decode_packet_received_example :
    handleConnection
        ([0xAA, 0x55, 0x01, 0x00, 0x25, 0x00, 0x00, 0x00] ++
          List.replicate 32 0xFF ++ [0x2A, 0x00, 0x04, 0x00, 0x00]) =
      ([L0Event.packetReceived (List.replicate 32 0xFF) 42 1024],
        ConnResult.ok) := by
  decide

/-- C6: any 8-byte header whose first two bytes decode (little-endian) to a
magic other than 0x55AA is a fatal protocol error: no event is produced,
whatever the type, flags, length bytes and remaining stream. -/
theorem bad_magic_fatal_no_event (b0 b1 b2 b3 b4 b5 b6 b7 : Nat)
    (rest : List Nat) (hmagic : u16le b0 b1 ≠ ipcMagic) :
    handleConnection (b0 :: b1 :: b2 :: b3 :: b4 :: b5 :: b6 :: b7 :: rest) =
      ([], ConnResult.protocolError) := by
  rw [handleConnection_cons, if_pos hmagic]

/-- C6 witness: the all-zero header (magic `00 00`) is rejected as a fatal
protocol error with no event. -/
theorem bad_magic_fatal_no_event_witness :
    u16le 0 0 ≠ ipcMagic ∧
    handleConnection [0, 0, 0, 0, 0, 0, 0, 0] =
      ([], ConnResult.protocolError) :=
  ⟨by decide, bad_magic_fatal_no_event 0 0 0 0 0 0 0 0 [] (by decide)⟩

/-- C7: a well-formed `0x01` frame whose declared (and present) payload is
shorter than 37 bytes is consumed whole — header plus payload — producing no
event and no error, and decoding continues with the next frame. -/
theorem short_packet_frame_skipped (b3 l0 l1 l2 l3 : Nat)
    (payload rest : List Nat)
    (hplen : payload.length = u32le l0 l1 l2 l3)
    (hshort : payload.length < 37) :
    handleConnection
        (0xAA :: 0x55 :: 0x01 :: b3 :: l0 :: l1 :: l2 :: l3 ::
          (payload ++ rest)) =
      handleConnection rest := by
  rw [handleConnection_cons]
  have hm : ¬ (u16le 0xAA 0x55 ≠ ipcMagic) := by decide
  rw [if_neg hm]
  have hge : ¬ ((payload ++ rest).length < u32le l0 l1 l2 l3) := by
    simp only [List.length_append, not_lt]
    omega
  rw [if_neg hge]
  rw [List.take_left' hplen, List.drop_left' hplen]
  have hp : parseFrame 0x01 payload = Option.none := by
    simp [parseFrame, hshort]
  rw [hp]

/-- C7 witness: a `0x01` frame with declared length 10 and a 10-byte payload
decodes to whatever the rest of the stream decodes to — here the empty rest,
so no events and a clean close. -/
theorem short_packet_frame_skipped_witness :
    ((List.replicate 10 0).length = u32le 10 0 0 0 ∧
      (List.replicate 10 0).length < 37) ∧
    handleConnection
        (0xAA :: 0x55 :: 0x01 :: 0 :: 10 :: 0 :: 0 :: 0 ::
          (List.replicate 10 0 ++ [])) =
      handleConnection [] :=
  ⟨⟨by decide, by decide⟩,
   short_packet_frame_skipped 0 10 0 0 0 (List.replicate 10 0) []
     (by decide) (by decide)⟩

end MembraneAgent
